import Mathlib

/-!
Shallow embedding of the R2R pull and sort scripts
(r2r_sftp_pull.py and r2r_validate_sort.py).

Pure logic is translated directly from the source.  External effects
(sftp listings and transfers, df, md5sum, tar, rsync, mkdir, the
filesystem and the metadata API) are supplied as explicit oracle inputs
recording the outcome of each external call, and Python exceptions that
the source does not catch are modelled with Option (none = the run dies
with an uncaught exception).
-/

namespace R2R

/-! ## String utilities mirroring the Python primitives used by the scripts -/

/-- startsList p l is true when p is an initial segment of l. -/
def startsList : List Char → List Char → Bool
  | [], _ => true
  | _ :: _, [] => false
  | p :: ps, c :: cs => p == c && startsList ps cs

/-- subList pat hay is true when pat occurs contiguously inside hay. -/
def subList (pat : List Char) : List Char → Bool
  | [] => pat.isEmpty
  | c :: t => startsList pat (c :: t) || subList pat t

/-- Python membership test on strings: containsSub hay pat models pat in hay. -/
def containsSub (hay pat : String) : Bool :=
  subList pat.toList hay.toList

/-- endsList l suf is true when suf is a final segment of l. -/
def endsList (l suf : List Char) : Bool :=
  startsList suf.reverse l.reverse

/-- Python str.endswith. -/
def endsWithS (s suf : String) : Bool :=
  endsList s.toList suf.toList

/-- Split a character list at every occurrence of sep, keeping empty
pieces, as Python str.split(sep) does for a one-character separator. -/
def splitCharList (sep : Char) : List Char → List (List Char)
  | [] => [[]]
  | c :: t =>
      let r := splitCharList sep t
      if c == sep then [] :: r
      else
        match r with
        | [] => [[c]]
        | h :: rt => (c :: h) :: rt

/-- Python str.split(sep) for a one-character separator. -/
def splitS (s : String) (sep : Char) : List String :=
  (splitCharList sep s.toList).map (fun l => ⟨l⟩)

/-- Drop leading and trailing whitespace (Python str.strip). -/
def pyStrip (s : String) : String :=
  ⟨((s.toList.dropWhile Char.isWhitespace).reverse.dropWhile Char.isWhitespace).reverse⟩

/-- Whitespace-separated words with empty pieces discarded
(Python str.split() with no argument). -/
def wordsAux : List Char → List Char → List (List Char)
  | acc, [] => if acc.isEmpty then [] else [acc.reverse]
  | acc, c :: t =>
      if c.isWhitespace then
        if acc.isEmpty then wordsAux [] t else acc.reverse :: wordsAux [] t
      else wordsAux (c :: acc) t

/-- Python str.split() with no argument. -/
def pyWords (s : String) : List String :=
  (wordsAux [] s.toList).map (fun l => ⟨l⟩)

/-- ASCII lower-casing of one character. -/
def lowerChar (c : Char) : Char :=
  if 65 ≤ c.toNat && c.toNat ≤ 90 then Char.ofNat (c.toNat + 32) else c

/-- ASCII lower-casing of a string. -/
def lowerStr (s : String) : String :=
  ⟨s.toList.map lowerChar⟩

/-! ## Enrichment classifier (r2r_sftp_pull.py, build_sqlite lines 439-450) -/

/-- The watercolumn marker variants (wcsd_str in build_sqlite). -/
def wcsd_str : List String :=
  ["[water column]", "[Watercolumn]", "[Water Column]", "[watercolumn]"]

/-- Data-type classification, translated from build_sqlite lines 439-450:
Multibeam Sonar defaults to Multibeam and is overridden to WCSD when the
instrument name contains a watercolumn marker; Splitbeam Sonar is WCSD;
everything else is Trackline. -/
def classify (instrument_type instrument : String) : String :=
  if instrument_type == "Multibeam Sonar" then
    if wcsd_str.any (fun s => containsSub instrument s) then "WCSD" else "Multibeam"
  else if instrument_type == "Splitbeam Sonar" then "WCSD"
  else "Trackline"

/-- C4: classification is a deterministic function of instrument_type and
instrument_name: Multibeam Sonar gives Multibeam unless the name contains a
watercolumn variant (then WCSD); Splitbeam Sonar gives WCSD; every other
instrument_type gives Trackline. -/
theorem classification_deterministic :
    (∀ name, classify "Multibeam Sonar" name =
      (if wcsd_str.any (fun s => containsSub name s) then "WCSD" else "Multibeam"))
    ∧ (∀ name, classify "Splitbeam Sonar" name = "WCSD")
    ∧ (∀ t name, t ≠ "Multibeam Sonar" → t ≠ "Splitbeam Sonar" →
        classify t name = "Trackline") := by
  refine ⟨fun name => rfl, fun name => rfl, fun t name h1 h2 => ?_⟩
  simp [classify, h1, h2]

/-- Witness for C4 at the concrete instruments named by the spec. -/
theorem classification_deterministic_witness :
    ("Gravimeter" : String) ≠ "Multibeam Sonar"
    ∧ ("Gravimeter" : String) ≠ "Splitbeam Sonar"
    ∧ classify "Multibeam Sonar" "EM124 [Water Column]" = "WCSD"
    ∧ classify "Splitbeam Sonar" "EK80" = "WCSD"
    ∧ classify "Gravimeter" "BGM-3" = "Trackline" := by
  refine ⟨by decide, by decide, ?_, classification_deterministic.2.1 "EK80",
    classification_deterministic.2.2 "Gravimeter" "BGM-3" (by decide) (by decide)⟩
  rw [classification_deterministic.1 "EM124 [Water Column]"]
  decide

/-! ## Inventory store rows (the DATASETS table) -/

/-- One persisted row of the DATASETS table (see the insert in build_sqlite
and the selects in query_sqlite and sort_landing_zone). -/
structure Row where
  fileset_id : String
  cruise_id : String
  platform_name : String
  instrument_name : String
  instrument_type : String
  size_bytes : Int
  human_readable : String
  file_count : Int
  package_path : String
  date_dir : String
  data_type : String
  been_pulled : String
deriving DecidableEq, Repr

/-- SQLite LIKE with a wildcard-free pattern is ASCII-case-insensitive
equality; the scripts only pass plain data-type and id strings as
patterns, so LIKE reduces to this comparison. -/
def likeEq (col pat : String) : Bool :=
  lowerStr col == lowerStr pat

/-! ## Selection planner (r2r_sftp_pull.py, query_sqlite lines 557-580) -/

/-- The query of query_sqlite lines 557-565: all rows with
BEEN_PULLED = "N" whose DATA_TYPE matches the requested type, in store
order. -/
def queryPending (db : List Row) (data_type : String) : List Row :=
  db.filter (fun r => r.been_pulled == "N" && likeEq r.data_type data_type)

/-- The byte-counter loop of query_sqlite lines 567-580: a row is added to
the package dict exactly when the counter before adding it is still under
free_space, and only then is its size added to the counter. -/
def planGo (budget : Int) : List Row → Int → List Row
  | [], _ => []
  | r :: rest, c =>
      if c < budget then r :: planGo budget rest (c + r.size_bytes)
      else planGo budget rest c

/-- The rows accumulated by the byte-counter loop, starting from a zero
counter as in the source. -/
def plan (rows : List Row) (budget : Int) : List Row :=
  planGo budget rows 0

/-- Same loop, recording for every processed row whether it was included. -/
def planFlagsGo (budget : Int) : List Int → Int → List Bool
  | [], _ => []
  | s :: rest, c =>
      if c < budget then true :: planFlagsGo budget rest (c + s)
      else false :: planFlagsGo budget rest c

/-- Inclusion flags of the byte-counter loop over the listed sizes. -/
def planFlags (sizes : List Int) (budget : Int) : List Bool :=
  planFlagsGo budget sizes 0

/-- Running total of the sizes of the included rows strictly before
position i (the value of byte_counter when row i is examined). -/
def takenBefore (sizes : List Int) (flags : List Bool) (i : Nat) : Int :=
  (((sizes.zip flags).take i).map (fun sf => if sf.2 then sf.1 else 0)).sum

theorem takenBefore_zero (sizes : List Int) (flags : List Bool) :
    takenBefore sizes flags 0 = 0 := by
  simp [takenBefore]

theorem takenBefore_cons (s : Int) (rest : List Int) (b : Bool) (fs : List Bool) (j : Nat) :
    takenBefore (s :: rest) (b :: fs) (j + 1)
      = (if b then s else 0) + takenBefore rest fs j := by
  simp [takenBefore]

theorem planFlagsGo_getD (budget : Int) :
    ∀ (sizes : List Int) (c : Int) (i : Nat), i < (planFlagsGo budget sizes c).length →
      (planFlagsGo budget sizes c).getD i false =
        decide (c + takenBefore sizes (planFlagsGo budget sizes c) i < budget) := by
  intro sizes
  induction sizes with
  | nil => intro c i h; simp [planFlagsGo] at h
  | cons s rest ih =>
      intro c i h
      by_cases hc : c < budget
      · simp only [planFlagsGo, if_pos hc] at h ⊢
        cases i with
        | zero =>
            rw [List.getD_cons_zero, takenBefore_zero]
            symm
            rw [decide_eq_true_eq]
            omega
        | succ j =>
            have h2 : j < (planFlagsGo budget rest (c + s)).length := by
              simpa using h
            rw [List.getD_cons_succ, ih (c + s) j h2, takenBefore_cons, decide_eq_decide]
            have hb : (if (true : Bool) = true then s else (0 : Int)) = s := by simp
            rw [hb]
            omega
      · simp only [planFlagsGo, if_neg hc] at h ⊢
        cases i with
        | zero =>
            rw [List.getD_cons_zero, takenBefore_zero]
            symm
            rw [decide_eq_false_iff_not]
            omega
        | succ j =>
            have h2 : j < (planFlagsGo budget rest c).length := by
              simpa using h
            rw [List.getD_cons_succ, ih c j h2, takenBefore_cons, decide_eq_decide]
            have hb : (if (false : Bool) = true then s else (0 : Int)) = 0 := by simp
            rw [hb]
            omega

theorem planGo_budget (budget : Int) :
    ∀ (rows : List Row) (c : Int), planGo budget rows c ≠ [] →
      c + (((planGo budget rows c).dropLast.map Row.size_bytes).sum) < budget := by
  intro rows
  induction rows with
  | nil => intro c h; simp [planGo] at h
  | cons r rest ih =>
      intro c h
      by_cases hc : c < budget
      · simp only [planGo, if_pos hc] at h ⊢
        cases htail : planGo budget rest (c + r.size_bytes) with
        | nil => simpa [htail] using hc
        | cons x xs =>
            have hne : planGo budget rest (c + r.size_bytes) ≠ [] := by simp [htail]
            have h3 := ih (c + r.size_bytes) hne
            rw [htail] at h3
            rw [List.dropLast_cons₂]
            simp only [List.map_cons, List.sum_cons]
            linarith
      · simp only [planGo, if_neg hc] at h ⊢
        exact ih c h

theorem planGo_eq_flags (budget : Int) :
    ∀ (rows : List Row) (c : Int),
      planGo budget rows c =
        (rows.zip (planFlagsGo budget (rows.map Row.size_bytes) c)).filterMap
          (fun rf => if rf.2 then some rf.1 else none) := by
  intro rows
  induction rows with
  | nil => intro c; simp [planGo, planFlagsGo]
  | cons r rest ih =>
      intro c
      by_cases hc : c < budget <;>
        simp [planGo, planFlagsGo, hc, ih]

/-- C3: the Selection Planner over the Pending records matching the
data-type filter, in store order, with budget B: a record is included
exactly when the byte counter before adding it (the running total of the
sizes already included) is strictly under B, and the sum of size_bytes
over all but the last included record is strictly under B. -/
theorem selection_budget (db : List Row) (t : String) (B : Int) :
    (plan (queryPending db t) B =
      ((queryPending db t).zip
          (planFlags ((queryPending db t).map Row.size_bytes) B)).filterMap
        (fun rf => if rf.2 then some rf.1 else none))
    ∧ (∀ (i : Nat), i < (planFlags ((queryPending db t).map Row.size_bytes) B).length →
        (planFlags ((queryPending db t).map Row.size_bytes) B).getD i false =
          decide (takenBefore ((queryPending db t).map Row.size_bytes)
              (planFlags ((queryPending db t).map Row.size_bytes) B) i < B))
    ∧ (plan (queryPending db t) B ≠ [] →
        (((plan (queryPending db t) B).dropLast.map Row.size_bytes).sum) < B) := by
  refine ⟨planGo_eq_flags B (queryPending db t) 0, fun i h => ?_, fun h => ?_⟩
  · rw [show planFlags ((queryPending db t).map Row.size_bytes) B
        = planFlagsGo B ((queryPending db t).map Row.size_bytes) 0 from rfl] at h ⊢
    rw [planFlagsGo_getD B ((queryPending db t).map Row.size_bytes) 0 i h,
      decide_eq_decide]
    omega
  · have h2 : planGo B (queryPending db t) 0 ≠ [] := by
      simpa [plan] using h
    have := planGo_budget B (queryPending db t) 0 h2
    simpa [plan] using this

/-- A pending WCSD row of the given size and path, for concrete runs. -/
def mkWcsdRow (p : String) (sz : Int) : Row :=
  { fileset_id := "1", cruise_id := "CR", platform_name := "SHIP",
    instrument_name := "EM124 [Water Column]", instrument_type := "Multibeam Sonar",
    size_bytes := sz, human_readable := "", file_count := 1,
    package_path := p, date_dir := "2022-05-01", data_type := "WCSD",
    been_pulled := "N" }

/-- Three pending 4 GB WCSD rows (the sizing scenario of the spec). -/
def exSelDb : List Row :=
  [mkWcsdRow "/r/a.tar" 4000000000, mkWcsdRow "/r/b.tar" 4000000000,
   mkWcsdRow "/r/c.tar" 4000000000]

/-- Witness for C3: with three pending 4 GB rows and a 10 GB budget the
plan is nonempty and the sizes of all but its last record sum to under
the budget. -/
theorem selection_budget_witness :
    plan (queryPending exSelDb "WCSD") 10000000000 ≠ []
    ∧ (((plan (queryPending exSelDb "WCSD") 10000000000).dropLast.map
          Row.size_bytes).sum) < 10000000000 := by
  have hne : plan (queryPending exSelDb "WCSD") 10000000000 ≠ [] := by decide
  exact ⟨hne, (selection_budget exSelDb "WCSD" 10000000000).2.2 hne⟩

/-! ## Discovery candidates (r2r_sftp_pull.py, check_date_dirs lines 332-346) -/

/-- A candidate package discovered under a date directory. -/
structure Cand where
  r2rId : String
  packagePath : String
deriving DecidableEq, Repr

/-- Per-entry body of the check_date_dirs loop, lines 333-346.  An entry
whose name contains ".md5" is silently excluded; otherwise its fileset id
is the second-to-last underscore-delimited segment (Python index [-2],
an IndexError when there are fewer than two segments, caught by the
except which logs the error and continues).  The Bool records whether an
error was appended. -/
def entryOutcome (dateDir idStr : String) : Option Cand × Bool :=
  if containsSub idStr ".md5" then (none, false)
  else
    if h : 2 ≤ (splitS idStr '_').length then
      (some ⟨(splitS idStr '_').get ⟨(splitS idStr '_').length - 2, by omega⟩,
        dateDir ++ "/" ++ idStr⟩, false)
    else (none, true)

/-- The candidate (if any) produced from one directory entry. -/
def entryCandidate (dateDir idStr : String) : Option Cand :=
  (entryOutcome dateDir idStr).1

/-- Candidates produced from a list of directory entries; failed entries
contribute nothing and processing continues. -/
def processEntries (dateDir : String) (entries : List String) : List Cand :=
  entries.filterMap (entryCandidate dateDir)

/-- C5 counterexample: the code excludes any entry whose name merely
contains ".md5"; the entry below does not end in the manifest suffix yet
yields no candidate, refuting the claim that an entry becomes a candidate
exactly when it does not end in the manifest suffix. -/
theorem entry_suffix_cx :
    endsWithS "A_12345_01.md5.bak" ".md5" = false
    ∧ entryCandidate "/data/2022-05-01" "A_12345_01.md5.bak" = none := by
  exact ⟨by decide, by decide⟩

/-- C5 amended: an entry becomes a candidate exactly when its name does
not contain ".md5" and it has at least two underscore-delimited segments;
the fileset id of a candidate is the second-to-last segment and its path
is the date directory joined with the entry name; an entry producing no
candidate is skipped without disturbing the processing of the other
entries. -/
theorem discovery_entry_rule (d e : String) :
    (entryCandidate d e = none ↔
      (containsSub e ".md5" = true ∨ (splitS e '_').length < 2))
    ∧ (∀ c, entryCandidate d e = some c →
        containsSub e ".md5" = false ∧ 2 ≤ (splitS e '_').length
        ∧ c.r2rId = (splitS e '_').getD ((splitS e '_').length - 2) ""
        ∧ c.packagePath = d ++ "/" ++ e)
    ∧ (∀ (pre post : List String) (bad : String), entryCandidate d bad = none →
        processEntries d (pre ++ bad :: post)
          = processEntries d pre ++ processEntries d post) := by
  refine ⟨?_, ?_, ?_⟩
  · by_cases h1 : containsSub e ".md5" = true
    · simp [entryCandidate, entryOutcome, h1]
    · by_cases h2 : 2 ≤ (splitS e '_').length
      · constructor
        · intro h0
          unfold entryCandidate entryOutcome at h0
          rw [if_neg h1, dif_pos h2] at h0
          simp at h0
        · intro h0
          rcases h0 with h0 | h0
          · exact absurd h0 h1
          · omega
      · constructor
        · intro _
          right
          omega
        · intro _
          unfold entryCandidate entryOutcome
          rw [if_neg h1, dif_neg h2]
  · intro c hc
    by_cases h1 : containsSub e ".md5" = true
    · simp [entryCandidate, entryOutcome, h1] at hc
    · by_cases h2 : 2 ≤ (splitS e '_').length
      · have h3 : (splitS e '_').length - 2 < (splitS e '_').length := by omega
        unfold entryCandidate entryOutcome at hc
        rw [if_neg h1, dif_pos h2] at hc
        have hc2 : (⟨(splitS e '_').get ⟨(splitS e '_').length - 2, h3⟩,
            d ++ "/" ++ e⟩ : Cand) = c := Option.some.inj hc
        subst hc2
        refine ⟨by simpa using h1, h2, ?_, rfl⟩
        rw [List.getD_eq_getElem _ _ h3]
        simp [List.get_eq_getElem]
      · simp [entryCandidate, entryOutcome, h1, h2] at hc
  · intro pre post bad hbad
    simp [processEntries, List.filterMap_append, List.filterMap_cons, hbad]

/-- Witness for C5 at a concrete well-formed entry and a concrete skip. -/
theorem discovery_entry_rule_witness :
    entryCandidate "/data/2022-05-01" "CRUISE_12345_01.tar"
      = some ⟨"12345", "/data/2022-05-01/CRUISE_12345_01.tar"⟩
    ∧ (containsSub "CRUISE_12345_01.tar" ".md5" = false
        ∧ 2 ≤ (splitS "CRUISE_12345_01.tar" '_').length
        ∧ (Cand.mk "12345" "/data/2022-05-01/CRUISE_12345_01.tar").r2rId
            = (splitS "CRUISE_12345_01.tar" '_').getD
                ((splitS "CRUISE_12345_01.tar" '_').length - 2) ""
        ∧ (Cand.mk "12345" "/data/2022-05-01/CRUISE_12345_01.tar").packagePath
            = "/data/2022-05-01" ++ "/" ++ "CRUISE_12345_01.tar")
    ∧ processEntries "/d" (["A_1_x"] ++ "bad" :: ["B_2_y"])
        = processEntries "/d" ["A_1_x"] ++ processEntries "/d" ["B_2_y"] := by
  refine ⟨by decide,
    (discovery_entry_rule "/data/2022-05-01" "CRUISE_12345_01.tar").2.1 _ (by decide),
    (discovery_entry_rule "/d" "irrelevant").2.2 ["A_1_x"] ["B_2_y"] "bad" (by decide)⟩

/-! ## User package selection (r2r_sftp_pull.py, query_sqlite lines 588-615) -/

/-- Trailing part of a Python int literal body: digits with single
underscores between digits. -/
def intTail : List Char → Bool
  | [] => true
  | c :: t =>
      if c.isDigit then intTail t
      else if c == '_' then
        match t with
        | [] => false
        | d :: t2 => d.isDigit && intTail t2
      else false

/-- A nonempty digit sequence acceptable to Python int() after the
optional sign. -/
def intOkList : List Char → Bool
  | [] => false
  | c :: t => c.isDigit && intTail t

/-- Numeric value of a digit sequence, underscores skipped. -/
def digitsVal (l : List Char) : Nat :=
  l.foldl (fun a c => if c.isDigit then a * 10 + (c.toNat - 48) else a) 0

/-- Python int(s): strips whitespace, accepts an optional sign and a
digit sequence, raising ValueError (none) otherwise. -/
def pyInt (s : String) : Option Int :=
  match (pyStrip s).toList with
  | '+' :: rest => if intOkList rest then some ((digitsVal rest : Nat) : Int) else none
  | '-' :: rest => if intOkList rest then some (-((digitsVal rest : Nat) : Int)) else none
  | l => if intOkList l then some ((digitsVal l : Nat) : Int) else none

/-- One iteration of the choices loop, query_sqlite lines 596-606: a
token containing a dash must split into exactly two int endpoints and
contributes the inclusive range; any other token must itself be an int.
A ValueError (unpacking or int parsing) kills the run: none. -/
def tokenStep (acc : Finset Int) (tok : String) : Option (Finset Int) :=
  if tok.toList.contains '-' then
    match splitS (pyStrip tok) '-' with
    | [a, b] =>
        match pyInt a, pyInt b with
        | some st, some en => some (acc ∪ Finset.Icc st en)
        | _, _ => none
    | _ => none
  else
    match pyInt (pyStrip tok) with
    | some v => some (insert v acc)
    | none => none

/-- The choice_numbers set accumulated over all comma-separated tokens. -/
def parseChoices (s : String) : Option (Finset Int) :=
  (splitS s ',').foldlM tokenStep ∅

/-- A token on which tokenStep fails regardless of the accumulator. -/
def tokenBad (tok : String) : Bool :=
  if tok.toList.contains '-' then
    match splitS (pyStrip tok) '-' with
    | [a, b] => (pyInt a).isNone || (pyInt b).isNone
    | _ => true
  else (pyInt (pyStrip tok)).isNone

/-- The validity check of query_sqlite lines 608-615: if any accumulated
choice is out of the 1..n range the whole selection is rejected,
otherwise the valid choices are sorted and used. -/
def selectIdx (choices : String) (n : Nat) : Option (List Int) :=
  match parseChoices choices with
  | none => none
  | some S =>
      let valid := S.filter (fun c => 1 ≤ c ∧ c ≤ (n : Int))
      if valid.card ≠ S.card then none
      else some (valid.sort (· ≤ ·))

/-- The package paths selected by the user input over the displayed
package list (keys indexed from 1). -/
def chosenPackages (choices : String) (pkgs : List String) : Option (List String) :=
  (selectIdx choices pkgs.length).map (fun l => l.map (fun c => pkgs.getD (c.toNat - 1) ""))

theorem tokenStep_bad (tok : String) (h : tokenBad tok = true) :
    ∀ acc, tokenStep acc tok = none := by
  intro acc
  unfold tokenBad at h
  unfold tokenStep
  by_cases hd : tok.toList.contains '-' = true
  · rw [if_pos hd] at h ⊢
    cases hsp : splitS (pyStrip tok) '-' with
    | nil => rfl
    | cons a t =>
        cases t with
        | nil => rfl
        | cons b t2 =>
            cases t2 with
            | nil =>
                rw [hsp] at h
                cases ha : pyInt a with
                | none => simp [ha]
                | some va =>
                    cases hb : pyInt b with
                    | none => simp [ha, hb]
                    | some vb => simp [ha, hb] at h
            | cons x t3 => rfl
  · rw [if_neg hd] at h ⊢
    cases hp : pyInt (pyStrip tok) with
    | none => rfl
    | some v => simp [hp] at h

theorem parseChoices_bad (s : String)
    (h : ∃ tok ∈ splitS s ',', tokenBad tok = true) :
    parseChoices s = none := by
  unfold parseChoices
  obtain ⟨tok, hmem, hbad⟩ := h
  have main : ∀ (l : List String) (acc : Finset Int), tok ∈ l →
      l.foldlM tokenStep acc = none := by
    intro l
    induction l with
    | nil => intro acc h0; simp at h0
    | cons t rest ih =>
        intro acc hmem2
        rw [List.foldlM_cons]
        rcases List.mem_cons.mp hmem2 with h1 | h1
        · subst h1
          rw [tokenStep_bad tok hbad acc]
          rfl
        · cases hstep : tokenStep acc t with
          | none => rfl
          | some acc2 => simpa [hstep] using ih acc2 h1
  exact main _ _ hmem

/-- C7: for every user selection string over a displayed package list,
if any comma-separated token is unparsable or any accumulated choice is
out of range, the entire selection is invalidated and the operation
yields no result. -/
theorem selection_input_all_or_nothing (s : String) (pkgs : List String)
    (h : (∃ tok ∈ splitS s ',', tokenBad tok = true)
      ∨ (∃ S, parseChoices s = some S
          ∧ ∃ c ∈ S, ¬(1 ≤ c ∧ c ≤ (pkgs.length : Int)))) :
    chosenPackages s pkgs = none := by
  rcases h with h | ⟨S, hS, c, hcS, hcbad⟩
  · simp [chosenPackages, selectIdx, parseChoices_bad s h]
  · have hcval : c ∉ S.filter (fun c => 1 ≤ c ∧ c ≤ (pkgs.length : Int)) := by
      intro hmem
      exact hcbad (Finset.mem_filter.mp hmem).2
    have hss : S.filter (fun c => 1 ≤ c ∧ c ≤ (pkgs.length : Int)) ⊂ S :=
      Finset.ssubset_iff_of_subset (Finset.filter_subset _ _) |>.mpr ⟨c, hcS, hcval⟩
    have hcard : (S.filter (fun c => 1 ≤ c ∧ c ≤ (pkgs.length : Int))).card ≠ S.card :=
      Nat.ne_of_lt (Finset.card_lt_card hss)
    simp [chosenPackages, selectIdx, hS, hcard]

/-- Witness for C7: the selection string "1,x" over a two-package list
contains the unparsable token "x" and yields no result. -/
theorem selection_input_witness :
    tokenBad "x" = true
    ∧ "x" ∈ splitS "1,x" ','
    ∧ chosenPackages "1,x" ["a", "b"] = none :=
  ⟨by decide, by decide,
    selection_input_all_or_nothing "1,x" ["a", "b"] (Or.inl ⟨"x", by decide, by decide⟩)⟩

/-! ## Validation engine (r2r_validate_sort.py, validate_tarballs lines 239-292)

The filesystem and external checksum tool are oracles: md5File gives the
content of a checksum file (none when the file does not exist), md5Stderr
and md5Stdout give the outcome of the md5sum call on a tarball path. -/

/-- Oracles for one validation run. -/
structure ValEnv where
  md5File : String → Option String
  md5Stderr : String → Bool
  md5Stdout : String → String

/-- First whitespace-delimited token of a string (Python split()[0],
none models the IndexError raised on an empty split). -/
def firstTok (s : String) : Option String :=
  (pyWords s).head?

/-- The tarball path after the ungzip step of lines 254-256: a .gz name
loses its last three characters (ungzip_tar writes gzip_landing_path[:-3]
and removes the original).  The decompression primitive itself is an
external collaborator and is assumed to succeed. -/
def effName (n : String) : String :=
  if endsWithS n ".gz" then ⟨n.toList.take (n.toList.length - 3)⟩ else n

/-- The archives validate_tarballs examines: names ending in .tar or .gz
(line 249-250). -/
def tarballSel (listing : List String) : List String :=
  listing.filter (fun x => endsWithS x ".tar" || endsWithS x ".gz")

/-- One iteration of the validation loop, lines 252-286, threading the
shared errors list: a missing checksum file appends Fail; a checksum
token of length other than 32 appends Fail; md5sum stderr appends Fail;
a token mismatch appends Fail; none models the uncaught IndexError on an
empty checksum file or empty md5sum stdout. -/
def validateStep (env : ValEnv) (errs : List String) (name : String) : Option (List String) :=
  match env.md5File (effName name ++ ".md5") with
  | none => some (errs ++ ["Fail"])
  | some content =>
      match firstTok content with
      | none => none
      | some checksum =>
          if env.md5Stderr (effName name) then
            some ((if checksum.length == 32 then errs else errs ++ ["Fail"]) ++ ["Fail"])
          else
            match firstTok (env.md5Stdout (effName name)) with
            | none => none
            | some computed =>
                if checksum == computed then
                  some (if checksum.length == 32 then errs else errs ++ ["Fail"])
                else
                  some ((if checksum.length == 32 then errs else errs ++ ["Fail"]) ++ ["Fail"])

/-- The validation loop over all selected archives. -/
def validateGo (env : ValEnv) : List String → List String → Option (List String)
  | errs, [] => some errs
  | errs, n :: rest =>
      match validateStep env errs n with
      | none => none
      | some e => validateGo env e rest

/-- validate_tarballs: runs the loop from the incoming shared errors list
and reports True exactly when the final errors list is empty
(lines 288-292 test len(errors) against zero). -/
def validate_tarballs (env : ValEnv) (errs0 : List String) (listing : List String) :
    Option (List String × Bool) :=
  match validateGo env errs0 (tarballSel listing) with
  | none => none
  | some e => some (e, e.isEmpty)

/-- An archive on which the validation loop records a failure: missing
manifest, malformed (non-32-character) checksum token, md5sum failure,
or checksum mismatch. -/
def archiveFails (env : ValEnv) (name : String) : Bool :=
  match env.md5File (effName name ++ ".md5") with
  | none => true
  | some content =>
      match firstTok content with
      | none => false
      | some checksum =>
          !(checksum.length == 32) || env.md5Stderr (effName name) ||
            (match firstTok (env.md5Stdout (effName name)) with
             | none => false
             | some computed => !(checksum == computed))

/-- An archive with a co-located manifest holding a well-formed matching
checksum, on which the loop records nothing. -/
def archiveClean (env : ValEnv) (name : String) : Bool :=
  match env.md5File (effName name ++ ".md5") with
  | none => false
  | some content =>
      match firstTok content with
      | none => false
      | some checksum =>
          (checksum.length == 32) && !(env.md5Stderr (effName name)) &&
            (match firstTok (env.md5Stdout (effName name)) with
             | none => false
             | some computed => checksum == computed)

/-! ## Routing engine (r2r_validate_sort.py, sort_landing_zone lines 318-463) -/

/-- Filesystem and subprocess actions performed by the sort pass or the
copy step.  The source of sort_landing_zone contains no database write,
so no constructor for one is ever produced by its embedding. -/
inductive Action where
  | mkdirp (d : String)
  | tarExtract (dest src : String)
  | rm (p : String)
  | rsync (src dest : String)
deriving DecidableEq, Repr

/-- Oracles for the subprocess calls made by sort_landing_zone.  space
gives the landing_space_bytes result for a path: none models the script
returning the bare boolean False (whose subscripting then raises), some
(free, ok, human) the 3-tuple. -/
structure SortEnv where
  mkdirRet : String → Int
  space : String → Option (Int × Bool × String)
  tarRet : String → Int
  rmRet : String → Int
  rsyncRet : String → Int

/-- One row of the DATA_TYPES guidance table (lines 28-74). -/
structure Guidance where
  untar : Bool
  landing_directory : String
  space_check : String
deriving DecidableEq, Repr

/-- The landing-space placeholder used throughout the guidance table. -/
def nceiLanding : String := "<NCEI_LANDING_SPACE>"

/-- The DATA_TYPES table of r2r_validate_sort.py lines 28-74. -/
def DATA_TYPES (k : String) : Option Guidance :=
  if k == "Multibeam Sonar" then some ⟨true, nceiLanding, nceiLanding⟩
  else if k == "Gravimeter" then some ⟨false, nceiLanding, nceiLanding⟩
  else if k == "Magnetometer" then some ⟨false, nceiLanding, nceiLanding⟩
  else if k == "gnss" then some ⟨false, nceiLanding, nceiLanding⟩
  else if k == "r2rnav" then some ⟨false, nceiLanding, nceiLanding⟩
  else if k == "Subbottom" then some ⟨true, nceiLanding, nceiLanding⟩
  else if k == "Singlebeam Sonar" then some ⟨true, nceiLanding, nceiLanding⟩
  else if k == "Splitbeam Sonar" then some ⟨true, nceiLanding, nceiLanding⟩
  else if k == "WCD Multibeam" then some ⟨true, nceiLanding, nceiLanding⟩
  else none

/-- Guidance resolution of lines 356-378 from the data group (DATA_TYPE
column), instrument type and instrument name. -/
def resolveGuidance (data_group instrument_type instrument_name : String) : Option Guidance :=
  if data_group == "WCSD" then
    if instrument_type == "Splitbeam Sonar" then DATA_TYPES "Splitbeam Sonar"
    else DATA_TYPES "WCD Multibeam"
  else if data_group == "Multibeam" then DATA_TYPES "Multibeam Sonar"
  else if data_group == "Trackline" then
    if instrument_type == "Gravimeter" then DATA_TYPES "Gravimeter"
    else if instrument_type == "Magnetometer" then DATA_TYPES "Magnetometer"
    else if instrument_type == "Singlebeam Sonar" then
      if containsSub instrument_name "[includes subbottom]" then DATA_TYPES "Subbottom"
      else DATA_TYPES "Singlebeam Sonar"
    else none
  else none

/-- Replace every occurrence of pat inside a character list, with fuel
bounding the recursion by the input length. -/
def replaceFuel (pat rep : List Char) : Nat → List Char → List Char
  | 0, l => l
  | _ + 1, [] => []
  | f + 1, c :: t =>
      if !pat.isEmpty && startsList pat (c :: t) then
        rep ++ replaceFuel pat rep f ((c :: t).drop pat.length)
      else c :: replaceFuel pat rep f t

/-- Substring replacement on strings. -/
def pyReplace (s pat rep : String) : String :=
  ⟨replaceFuel pat.toList rep.toList (s.toList.length + 1) s.toList⟩

/-- Python str.format(ship=..., survey=...) restricted to templates that
use at most the two simple named fields; the guidance templates contain
no braces at all, so this is the identity on them, as format is. -/
def renderTemplate (t ship survey : String) : String :=
  pyReplace (pyReplace t "\x7bship\x7d" ship) "\x7bsurvey\x7d" survey

/-- os.path.join for an absolute directory and a relative entry name. -/
def joinPath (a b : String) : String := a ++ "/" ++ b

/-- The move-or-untar half of the per-tarball body, lines 399-460.
dir is tarball_landing_directory.  In the untar branch the space probe
targets guidance space_check; in the copy branch it targets dir.  none
models the TypeError raised when landing_space_bytes returned a bare
False and the script subscripts it. -/
def untarOrCopy (env : SortEnv) (g : Guidance) (dir tarAbs : String) :
    Option (List Action × List String) :=
  if g.untar then
    match env.space g.space_check with
    | none => none
    | some (_, ok, _) =>
        if ok then
          if env.tarRet tarAbs > 0 then some ([Action.tarExtract dir tarAbs], [])
          else some ([Action.tarExtract dir tarAbs, Action.rm tarAbs,
                      Action.rm (tarAbs ++ ".md5")], [])
        else some ([], [])
  else
    match env.space dir with
    | none => none
    | some (_, ok, _) =>
        if ok then
          if env.rsyncRet tarAbs == 0 then
            some ([Action.rsync tarAbs dir, Action.rm tarAbs], [])
          else some ([Action.rsync tarAbs dir], [])
        else some ([], [])

/-- The mkdir step of lines 388-397 for non-WCSD groups: on mkdir
failure an error is recorded and the tarball is skipped. -/
def mkdirThen (env : SortEnv) (g : Guidance) (dir tarAbs : String) :
    Option (List Action × List String) :=
  if env.mkdirRet dir == 0 then
    match untarOrCopy env g dir tarAbs with
    | none => none
    | some ae => some (Action.mkdirp dir :: ae.1, ae.2)
  else some ([Action.mkdirp dir], ["Could not make new folder"])

/-- Per-tarball body of sort_landing_zone, lines 336-460.  The filename
must split on underscores into exactly three parts (survey, id, suffix) or
the unpacking raises (none); an id that matches no row raises IndexError
on results[0] (none); an unresolved guidance prints a diagnostic and
skips. -/
def sortOne (env : SortEnv) (db : List Row) (landing_path tarball : String) :
    Option (List Action × List String) :=
  match splitS tarball '_' with
  | [survey, r2r_id, _] =>
      match db.filter (fun r => likeEq r.fileset_id r2r_id) with
      | [] => none
      | row :: _ =>
          match resolveGuidance row.data_type row.instrument_type row.instrument_name with
          | none => some ([], [])
          | some g =>
              if row.data_type == "WCSD" then
                untarOrCopy env g g.landing_directory (joinPath landing_path tarball)
              else
                mkdirThen env g
                  (renderTemplate g.landing_directory (lowerStr row.platform_name) survey)
                  (joinPath landing_path tarball)
  | _ => none

/-- The tarballs the sort pass considers: names ending in .tar or tar.gz
(line 333). -/
def sortSel (listing : List String) : List String :=
  listing.filter (fun x => endsWithS x ".tar" || endsWithS x "tar.gz")

/-- Result of a sort pass: the actions attempted, the errors recorded,
whether the run died with an uncaught exception, and the database, which
the source never writes (it only selects). -/
structure SortOut where
  acts : List Action
  errs : List String
  crashed : Bool
  db : List Row

/-- The per-tarball loop of sort_landing_zone. -/
def sortGo (env : SortEnv) (db : List Row) (landing_path : String) :
    List String → List Action → List String → SortOut
  | [], acts, errs => ⟨acts, errs, false, db⟩
  | t :: rest, acts, errs =>
      match sortOne env db landing_path t with
      | none => ⟨acts, errs, true, db⟩
      | some ae => sortGo env db landing_path rest (acts ++ ae.1) (errs ++ ae.2)

/-- sort_landing_zone: the whole body is guarded by the valid flag
(line 331); with valid false it does nothing at all. -/
def sort_landing_zone (env : SortEnv) (db : List Row) (landing_path : String)
    (listing : List String) (valid : Bool) : SortOut :=
  if valid then sortGo env db landing_path (sortSel listing) [] []
  else ⟨[], [], false, db⟩

/-- The main() sequence of r2r_validate_sort.py lines 466-471: validate
the landing directory, then sort with the returned verdict.  If
validation raised, sort never runs. -/
def validateThenSort (venv : ValEnv) (senv : SortEnv) (errs0 : List String)
    (listing : List String) (db : List Row) (landing_path : String) : List Action :=
  match validate_tarballs venv errs0 listing with
  | none => []
  | some p => (sort_landing_zone senv db landing_path listing p.2).acts

/-! ## Transfer step (r2r_sftp_pull.py, copy_packages lines 640-727) -/

/-- Oracles for one copy run: stderr and returncode of the sftp get for a
path, and the stdout of the ls of the landing directory performed right
after that copy. -/
structure CopyEnv where
  stderr : String → String
  ret : String → Int
  lsOut : String → String

/-- Index of the last dot in a character list. -/
def lastDotIdx : List Char → Option Nat
  | [] => none
  | c :: t =>
      match lastDotIdx t with
      | some i => some (i + 1)
      | none => if c == '.' then some 0 else none

/-- Stem of a file basename per os.path.splitext: cut at the last dot
unless every character before it is a dot. -/
def stemOfBase (b : List Char) : List Char :=
  match lastDotIdx b with
  | none => b
  | some i => if (b.take i).any (fun c => !(c == '.')) then b.take i else b

/-- Join character-list components with a separator. -/
def joinChar (sep : Char) : List (List Char) → List Char
  | [] => []
  | [x] => x
  | x :: xs => x ++ sep :: joinChar sep xs

/-- os.path.splitext(p)[0]: the path with its extension removed. -/
def splitextStem (p : String) : String :=
  ⟨joinChar '/' ((splitCharList '/' p.toList).dropLast
    ++ [stemOfBase ((splitCharList '/' p.toList).getLastD [])])⟩

/-- os.path.split(p)[1]: the final path component. -/
def basenameOf (p : String) : String :=
  (splitS p '/').getLastD ""

/-- The stderr screen of lines 693-698: with nonempty stderr whose
split('\n')[:-1] has more than one line, the path is skipped. -/
def copyErrSkip (env : CopyEnv) (p : String) : Bool :=
  (env.stderr p != "") && decide (1 < ((splitS (env.stderr p) '\n').dropLast).length)

/-- The success condition of lines 700-707 under which the database
update runs: not skipped by the stderr screen, returncode zero, and the
basename listed in the landing directory afterwards. -/
def copyLands (env : CopyEnv) (p : String) : Bool :=
  !(copyErrSkip env p) && (env.ret p == 0) &&
    (pyWords ⟨(env.lsOut p).toList.take ((env.lsOut p).toList.length - 1)⟩).contains
      (basenameOf p)

/-- The update of lines 711-717: set BEEN_PULLED to Y on every row whose
PACKAGE_PATH equals the copied path. -/
def setY (r : Row) : Row := { r with been_pulled := "Y" }

/-- Apply the BEEN_PULLED update for one path across the store. -/
def setPulled (db : List Row) (p : String) : List Row :=
  db.map (fun r => if r.package_path == p then setY r else r)

/-- The paths copy_packages iterates over: the chosen packages followed
by their companion manifests, lines 656-661. -/
def allCopyPaths (dirList : List String) : List String :=
  dirList ++ dirList.map (fun f => splitextStem f ++ ".md5")

/-- copy_packages, restricted to its effect on the inventory store: for
each path, in order, the update runs exactly when the copy landed. -/
def copy_packages (env : CopyEnv) (dirList : List String) (db : List Row) : List Row :=
  (allCopyPaths dirList).foldl
    (fun acc p => if copyLands env p then setPulled acc p else acc) db

/-! ## Theorems about validation, routing and the copy step -/

theorem validateStep_append (env : ValEnv) (errs : List String) (n : String)
    (e : List String) (h : validateStep env errs n = some e) : ∃ t, e = errs ++ t := by
  unfold validateStep at h
  repeat' split at h
  all_goals first
    | (injection h with h2
       subst h2
       first
         | exact ⟨[], (List.append_nil errs).symm⟩
         | exact ⟨["Fail"], rfl⟩
         | exact ⟨["Fail", "Fail"], List.append_assoc errs ["Fail"] ["Fail"]⟩)
    | cases h

theorem validateGo_append (env : ValEnv) :
    ∀ (l : List String) (errs e : List String), validateGo env errs l = some e →
      ∃ t, e = errs ++ t := by
  intro l
  induction l with
  | nil =>
      intro errs e h
      exact ⟨[], by simpa [validateGo] using (Option.some.inj h).symm⟩
  | cons n rest ih =>
      intro errs e h
      unfold validateGo at h
      cases hs : validateStep env errs n with
      | none => rw [hs] at h; cases h
      | some e1 =>
          rw [hs] at h
          obtain ⟨t1, ht1⟩ := validateStep_append env errs n e1 hs
          obtain ⟨t2, ht2⟩ := ih e1 e h
          exact ⟨t1 ++ t2, by rw [ht2, ht1]; simp⟩

theorem validateStep_clean (env : ValEnv) (errs : List String) (n : String)
    (h : archiveClean env n = true) : validateStep env errs n = some errs := by
  unfold archiveClean at h
  unfold validateStep
  cases hm : env.md5File (effName n ++ ".md5") with
  | none => simp [hm] at h
  | some content =>
      simp only [hm] at h ⊢
      cases ht : firstTok content with
      | none => simp [ht] at h
      | some ck =>
          simp only [ht] at h ⊢
          cases hc : firstTok (env.md5Stdout (effName n)) with
          | none => simp [hc] at h
          | some computed =>
              simp only [hc] at h ⊢
              simp only [Bool.and_eq_true, Bool.not_eq_true'] at h
              obtain ⟨⟨h32, hse⟩, heq⟩ := h
              rw [h32, hse, heq]
              simp

theorem validateStep_fails (env : ValEnv) (errs : List String) (n : String)
    (h : archiveFails env n = true) (e : List String)
    (hs : validateStep env errs n = some e) : e ≠ [] := by
  unfold archiveFails at h
  unfold validateStep at hs
  cases hm : env.md5File (effName n ++ ".md5") with
  | none =>
      simp only [hm] at hs
      rw [← Option.some.inj hs]
      simp
  | some content =>
      simp only [hm] at h hs
      cases ht : firstTok content with
      | none => simp [ht] at hs
      | some ck =>
          simp only [ht] at h hs
          by_cases hse : env.md5Stderr (effName n) = true
          · rw [if_pos hse] at hs
            rw [← Option.some.inj hs]
            simp
          · rw [if_neg hse] at hs
            cases hc : firstTok (env.md5Stdout (effName n)) with
            | none => simp [hc] at hs
            | some computed =>
                simp only [hc] at h hs
                by_cases hck : (ck == computed) = true
                · rw [if_pos hck] at hs
                  cases hl : (ck.length == 32) with
                  | true => simp [hl, hse, hck] at h
                  | false =>
                      rw [hl] at hs
                      simp only [Bool.false_eq_true, if_false] at hs
                      rw [← Option.some.inj hs]
                      simp
                · rw [if_neg hck] at hs
                  rw [← Option.some.inj hs]
                  simp

theorem validateGo_fails (env : ValEnv) :
    ∀ (l : List String) (errs e : List String) (n : String), n ∈ l →
      archiveFails env n = true → validateGo env errs l = some e → e ≠ [] := by
  intro l
  induction l with
  | nil => intro errs e n hn; simp at hn
  | cons m rest ih =>
      intro errs e n hn hf h
      unfold validateGo at h
      cases hs : validateStep env errs m with
      | none => rw [hs] at h; cases h
      | some e1 =>
          rw [hs] at h
          rcases List.mem_cons.mp hn with h1 | h1
          · subst h1
            have hne1 : e1 ≠ [] := validateStep_fails env errs n hf e1 hs
            obtain ⟨t, ht⟩ := validateGo_append env rest e1 e h
            rw [ht]
            intro hcontra
            exact hne1 (List.append_eq_nil.mp hcontra).1
          · exact ih e1 e n h1 hf h

/-- C9: the validate_tarballs verdict is True exactly when the shared
global errors list is empty after processing; the loop only appends to
the incoming list, and a batch in which every archive is clean leaves the
list untouched, so the verdict of a clean batch is the emptiness of the
errors accumulated before validation began. -/
theorem validate_verdict_global_errors (env : ValEnv) (errs0 : List String)
    (listing : List String) :
    (∀ e v, validate_tarballs env errs0 listing = some (e, v) →
      v = e.isEmpty ∧ ∃ t, e = errs0 ++ t)
    ∧ ((∀ n ∈ tarballSel listing, archiveClean env n = true) →
        validate_tarballs env errs0 listing = some (errs0, errs0.isEmpty)) := by
  constructor
  · intro e v h
    unfold validate_tarballs at h
    cases hg : validateGo env errs0 (tarballSel listing) with
    | none => rw [hg] at h; cases h
    | some f =>
        rw [hg] at h
        have hef : f = e ∧ f.isEmpty = v := by
          have := Option.some.inj h
          exact ⟨congrArg Prod.fst this, congrArg Prod.snd this⟩
        obtain ⟨he, hv⟩ := hef
        subst he
        exact ⟨hv.symm, validateGo_append env (tarballSel listing) errs0 f hg⟩
  · intro hclean
    have main : ∀ (l : List String), (∀ n ∈ l, archiveClean env n = true) →
        validateGo env errs0 l = some errs0 := by
      intro l
      induction l with
      | nil => intro _; rfl
      | cons m rest ih =>
          intro hall
          unfold validateGo
          rw [validateStep_clean env errs0 m (hall m (by simp))]
          exact ih (fun n hn => hall n (by simp [hn]))
    unfold validate_tarballs
    rw [main (tarballSel listing) hclean]

/-- Oracles describing a clean single-archive batch preceded by an
earlier unrelated error. -/
def exValEnvClean : ValEnv :=
  { md5File := fun p =>
      if p == "A_1_01.tar.md5" then
        some "00000000000000000000000000000000  A_1_01.tar" else none,
    md5Stderr := fun _ => false,
    md5Stdout := fun p =>
      if p == "A_1_01.tar" then
        "00000000000000000000000000000000  A_1_01.tar" else "" }

/-- Witness for C9: a fully clean batch is reported invalid because one
error was already on the shared list before validation began. -/
theorem validate_verdict_global_errors_witness :
    (∀ n ∈ tarballSel ["A_1_01.tar"], archiveClean exValEnvClean n = true)
    ∧ validate_tarballs exValEnvClean ["earlier df probe error"] ["A_1_01.tar"]
        = some (["earlier df probe error"], false) :=
  ⟨by decide,
    (validate_verdict_global_errors exValEnvClean ["earlier df probe error"]
      ["A_1_01.tar"]).2 (by decide)⟩

/-- C2: if any archive of the batch fails validation (missing manifest,
malformed checksum token, checksum failure or mismatch), the run routes
zero archives: either validation dies before sorting or the verdict is
False and the guarded sort body never executes. -/
theorem validation_all_or_nothing (venv : ValEnv) (senv : SortEnv)
    (errs0 : List String) (listing : List String) (db : List Row) (lp : String)
    (h : ∃ n ∈ tarballSel listing, archiveFails venv n = true) :
    validateThenSort venv senv errs0 listing db lp = [] := by
  unfold validateThenSort
  cases hv : validate_tarballs venv errs0 listing with
  | none => rfl
  | some p =>
      obtain ⟨n, hn, hf⟩ := h
      unfold validate_tarballs at hv
      cases hg : validateGo venv errs0 (tarballSel listing) with
      | none => rw [hg] at hv; cases hv
      | some f =>
          rw [hg] at hv
          have hne : f ≠ [] := validateGo_fails venv (tarballSel listing) errs0 f n hn hf hg
          have hp : p = (f, f.isEmpty) := (Option.some.inj hv).symm
          have hv2 : p.2 = false := by
            rw [hp]
            simpa using hne
          show (sort_landing_zone senv db lp listing p.2).acts = []
          rw [hv2]
          rfl

/-- An all-success subprocess oracle for the sort pass. -/
def exSortEnv : SortEnv :=
  { mkdirRet := fun _ => 0, space := fun _ => some (0, true, "0B"),
    tarRet := fun _ => 0, rmRet := fun _ => 0, rsyncRet := fun _ => 0 }

/-- Oracles for a batch of three archives in which the second manifest
checksum does not match the computed checksum. -/
def exValEnvBad : ValEnv :=
  { md5File := fun p =>
      if p == "a_1_01.tar.md5" then some "00000000000000000000000000000000 x"
      else if p == "b_2_01.tar.md5" then some "11111111111111111111111111111111 x"
      else if p == "c_3_01.tar.md5" then some "00000000000000000000000000000000 x"
      else none,
    md5Stderr := fun _ => false,
    md5Stdout := fun _ => "00000000000000000000000000000000 x" }

/-- Witness for C2: three archives, the second mismatching, no archive
routed. -/
theorem validation_all_or_nothing_witness :
    (∃ n ∈ tarballSel ["a_1_01.tar", "b_2_01.tar", "c_3_01.tar"],
        archiveFails exValEnvBad n = true)
    ∧ validateThenSort exValEnvBad exSortEnv []
        ["a_1_01.tar", "b_2_01.tar", "c_3_01.tar"] [] "/stage" = [] :=
  ⟨⟨"b_2_01.tar", by decide, by decide⟩,
    validation_all_or_nothing exValEnvBad exSortEnv []
      ["a_1_01.tar", "b_2_01.tar", "c_3_01.tar"] [] "/stage"
      ⟨"b_2_01.tar", by decide, by decide⟩⟩

@[simp] theorem setY_path (r : Row) : (setY r).package_path = r.package_path := rfl

@[simp] theorem setY_setY (r : Row) : setY (setY r) = setY r := rfl

theorem copy_foldl_map (env : CopyEnv) :
    ∀ (ps : List String) (db : List Row),
      ps.foldl (fun acc p => if copyLands env p then setPulled acc p else acc) db
        = db.map (fun r =>
            if ps.any (fun p => copyLands env p && (r.package_path == p)) then setY r
            else r) := by
  intro ps
  induction ps with
  | nil => intro db; simp
  | cons p rest ih =>
      intro db
      rw [List.foldl_cons]
      by_cases hl : copyLands env p = true
      · rw [if_pos hl, ih (setPulled db p)]
        unfold setPulled
        rw [List.map_map]
        apply List.map_congr_left
        intro r _
        by_cases hb : (r.package_path == p) = true
        · simp [Function.comp, hb, hl, List.any_cons]
        · simp [Function.comp, hb, hl, List.any_cons]
      · rw [if_neg hl, ih db]
        apply List.map_congr_left
        intro r _
        have hl2 : copyLands env p = false := by simpa using hl
        simp [List.any_cons, hl2]

theorem sortGo_db (env : SortEnv) (db : List Row) (lp : String) :
    ∀ (ts : List String) (acts : List Action) (errs : List String),
      (sortGo env db lp ts acts errs).db = db := by
  intro ts
  induction ts with
  | nil => intro acts errs; rfl
  | cons t rest ih =>
      intro acts errs
      unfold sortGo
      cases sortOne env db lp t with
      | none => rfl
      | some ae => exact ih (acts ++ ae.1) (errs ++ ae.2)

/-- C1 amended: the transfer step copy_packages is what flips
BEEN_PULLED from N to Y, doing so exactly for the rows whose
PACKAGE_PATH is a successfully landed path and touching nothing else,
while the sort pass never writes the store at all. -/
theorem pulled_status_copy_vs_sort :
    (∀ (env : CopyEnv) (dirList : List String) (db : List Row),
      copy_packages env dirList db
        = db.map (fun r =>
            if (allCopyPaths dirList).any
                (fun p => copyLands env p && (r.package_path == p)) then setY r
            else r))
    ∧ (∀ (senv : SortEnv) (db : List Row) (lp : String) (listing : List String)
        (valid : Bool), (sort_landing_zone senv db lp listing valid).db = db) := by
  constructor
  · intro env dirList db
    exact copy_foldl_map env (allCopyPaths dirList) db
  · intro senv db lp listing valid
    unfold sort_landing_zone
    by_cases hv : valid = true
    · rw [if_pos hv]
      exact sortGo_db senv db lp (sortSel listing) [] []
    · rw [if_neg hv]

/-- A pending inventory row for the package the user chose to copy. -/
def exCopyRow : Row :=
  { fileset_id := "12345", cruise_id := "CR", platform_name := "SHIP",
    instrument_name := "EM124", instrument_type := "Multibeam Sonar",
    size_bytes := 5, human_readable := "5 B", file_count := 1,
    package_path := "/r/2022-05-01/CRUISE_12345_01.tar", date_dir := "2022-05-01",
    data_type := "Multibeam", been_pulled := "N" }

/-- Oracles for a copy run in which the sftp get succeeds and the package
appears in the landing directory listing. -/
def exCopyEnv : CopyEnv :=
  { stderr := fun _ => "", ret := fun _ => 0,
    lsOut := fun _ => "CRUISE_12345_01.tar CRUISE_12345_01.md5\n" }

/-- C1 counterexample: the transfer step itself sets the record to
Pulled.  A record that is Pending before copy_packages is Pulled after
it, although the sort pass never ran, refuting the claim that only the
Routing Engine mutates pulled_status. -/
theorem copy_sets_pulled_cx :
    exCopyRow.been_pulled = "N"
    ∧ (copy_packages exCopyEnv ["/r/2022-05-01/CRUISE_12345_01.tar"]
        [exCopyRow]).map Row.been_pulled = ["Y"] :=
  ⟨rfl, by decide⟩

/-! ## Byte-size rendering (convert_size, identical in both scripts) -/

/-- Floor logarithm base 1024 with explicit fuel. -/
def log1024F : Nat → Nat → Nat
  | 0, _ => 0
  | f + 1, n => if n < 1024 then 0 else log1024F f (n / 1024) + 1

/-- convert_size (r2r_sftp_pull.py lines 42-60): returns 0B for zero,
raises ValueError (none) on negative input because math.log has an empty
domain there, raises IndexError (none) past the YB unit, and otherwise
renders the size against the unit table.  The two-decimal rounding of
the mantissa is abbreviated to the integer quotient; no caller inspects
the rendered text. -/
def convert_size (pkg_bytes : Int) : Option String :=
  if pkg_bytes == 0 then some "0B"
  else if pkg_bytes < 0 then none
  else
    if log1024F pkg_bytes.toNat pkg_bytes.toNat < 9 then
      some (toString (pkg_bytes.toNat / 1024 ^ log1024F pkg_bytes.toNat pkg_bytes.toNat)
        ++ " " ++ ["B", "KB", "MB", "GB", "TB", "PB", "EB", "ZB", "YB"].getD
            (log1024F pkg_bytes.toNat pkg_bytes.toNat) "")
    else none

/-! ## Discovery engine (r2r_sftp_pull.py, check_date_dirs lines 247-374) -/

/-- Outcome of one remote per-date listing call. -/
inductive LsOut where
  | notFound
  | errOther (msg : String)
  | ok (stdoutLines : List String)
deriving DecidableEq, Repr

/-- The remote listing oracle, keyed by the listed path; the listing is a
fixed function of the path, modelling an unchanged remote. -/
structure DiscEnv where
  listing : String → LsOut

/-- What check_date_dirs returns: 0 when a listing matched no objects
(line 317), or the accumulated date inventory. -/
inductive DiscoverResult where
  | zero
  | inv (l : List (String × List Cand))
deriving DecidableEq, Repr

/-- Numeric value of a digit list. -/
def natOfDigits (l : List Char) : Nat :=
  l.foldl (fun a c => a * 10 + (c.toNat - 48)) 0

/-- Nonempty and all digits. -/
def allDigits (l : List Char) : Bool :=
  !l.isEmpty && l.all Char.isDigit

/-- Gregorian leap year. -/
def isLeap (y : Nat) : Bool :=
  (y % 4 == 0 && y % 100 != 0) || (y % 400 == 0)

/-- Days in a month, as datetime validates them. -/
def daysInMonth (y m : Nat) : Nat :=
  if m == 2 then (if isLeap y then 29 else 28)
  else if m == 4 || m == 6 || m == 9 || m == 11 then 30
  else 31

/-- datetime.strptime(s, percent-Y-m-d) as a partial date parser: three
dash-separated digit groups forming a valid calendar date; anything else
raises ValueError, uncaught in check_date_dirs (none). -/
def parseDate (s : String) : Option (Nat × Nat × Nat) :=
  match splitS s '-' with
  | [ys, ms, ds] =>
      if allDigits ys.toList && allDigits ms.toList && allDigits ds.toList then
        if 1 ≤ natOfDigits ys.toList ∧ natOfDigits ys.toList ≤ 9999
            ∧ 1 ≤ natOfDigits ms.toList ∧ natOfDigits ms.toList ≤ 12
            ∧ 1 ≤ natOfDigits ds.toList
            ∧ natOfDigits ds.toList ≤ daysInMonth (natOfDigits ys.toList) (natOfDigits ms.toList) then
          some (natOfDigits ys.toList, natOfDigits ms.toList, natOfDigits ds.toList)
        else none
      else none
  | _ => none

/-- The cutoff comparison dt > datetime(2021, 1, 1) of line 301. -/
def afterCutoff : Nat × Nat × Nat → Bool
  | (y, m, d) => (2021 < y) || (y == 2021 && (1 < m || (m == 1 && 1 < d)))

/-- Last whitespace token of an ls -l line (line.split()[-1]; none models
the IndexError on a blank line, caught and logged). -/
def lastTok (line : String) : Option String :=
  (pyWords line).getLast?

/-- Candidate and error outcome of one listing line. -/
def lineOutcome (dateDir line : String) : Option Cand × Bool :=
  match lastTok line with
  | none => (none, true)
  | some idStr => entryOutcome dateDir idStr

/-- The inner loop over the listing body: candidates in order, plus the
errors logged for malformed lines. -/
def processLines (dateDir : String) (lines : List String) : List Cand × List String :=
  lines.foldl
    (fun acc l =>
      match lineOutcome dateDir l with
      | (some c, _) => (acc.1 ++ [c], acc.2)
      | (none, true) => (acc.1, acc.2 ++ ["String Error"])
      | (none, false) => acc)
    ([], [])

/-- The date loop of check_date_dirs lines 298-349: known dates are
skipped; a date that parses and clears the cutoff is listed; a listing
that matched no objects makes the whole function return 0 at once; other
listing errors are logged and the loop continues; a listing whose body
([1:-1] of the stdout lines) is nonempty contributes a date entry built
from its lines. -/
def checkGo (env : DiscEnv) (dbDates : List String) (filePath : String) :
    List String → List (String × List Cand) → List String →
      Option (DiscoverResult × List String)
  | [], acc, errs => some (.inv acc, errs)
  | d :: rest, acc, errs =>
      if d ∈ dbDates then checkGo env dbDates filePath rest acc errs
      else
        match parseDate d with
        | none => none
        | some ymd =>
            if afterCutoff ymd = true then
              match env.listing (filePath ++ "/" ++ d) with
              | .notFound => some (.zero, errs)
              | .errOther _ =>
                  checkGo env dbDates filePath rest acc (errs ++ ["Error in " ++ filePath])
              | .ok lines =>
                  if 0 < ((lines.drop 1).dropLast).length then
                    checkGo env dbDates filePath rest
                      (acc ++ [(d, (processLines (filePath ++ "/" ++ d)
                        ((lines.drop 1).dropLast)).1)])
                      (errs ++ (processLines (filePath ++ "/" ++ d)
                        ((lines.drop 1).dropLast)).2)
                  else checkGo env dbDates filePath rest acc errs
            else checkGo env dbDates filePath rest acc errs

/-- check_date_dirs over a date list against the dates known to the
store. -/
def check_date_dirs (env : DiscEnv) (dateList dbDates : List String)
    (filePath : String) : Option (DiscoverResult × List String) :=
  checkGo env dbDates filePath dateList [] []

/-- Number of candidates a discovery run yields; an aborted (0) or
crashed run yields none. -/
def candCount : Option (DiscoverResult × List String) → Nat
  | some (.inv l, _) => (l.map (fun p => p.2.length)).sum
  | _ => 0

/-! ## Enrichment (r2r_sftp_pull.py, build_sqlite lines 377-500) -/

/-- The fields build_sqlite reads from one metadata API response. -/
structure Meta where
  files : Int
  total_bytes : Int
  make_model_name : String
  device_name : String
  cruise_id : String
  vessel_name : String
deriving DecidableEq, Repr

/-- The row build_sqlite inserts for one candidate (lines 463-485),
classified by the rules of lines 439-450, with BEEN_PULLED = N. -/
def mkRow (date_dir : String) (c : Cand) (m : Meta) (hr : String) : Row :=
  { fileset_id := c.r2rId, cruise_id := m.cruise_id, platform_name := m.vessel_name,
    instrument_name := m.make_model_name, instrument_type := m.device_name,
    size_bytes := m.total_bytes, human_readable := hr, file_count := m.files,
    package_path := c.packagePath, date_dir := date_dir,
    data_type := classify m.device_name m.make_model_name, been_pulled := "N" }

/-- build_sqlite: one insert per candidate whose metadata lookup and
size conversion succeed; failures are logged and that candidate skipped
(lines 452-461). -/
def build_sqlite (meta : String → Option Meta) (inv : List (String × List Cand))
    (db : List Row) : List Row :=
  db ++ (inv.map (fun p => p.2.filterMap (fun c =>
    match meta c.r2rId with
    | none => none
    | some m =>
        match convert_size m.total_bytes with
        | none => none
        | some hr => some (mkRow p.1 c m hr)))).flatten

/-- The DATE_DIR values present in the store (the select of line 278). -/
def dbDatesOf (db : List Row) : List String :=
  db.map Row.date_dir

/-- The store after one discovery plus enrichment run: untouched when
discovery aborted or raised (build_sqlite is then never reached or
crashes on the integer 0 before inserting). -/
def pipelineDb (env : DiscEnv) (meta : String → Option Meta) (dates : List String)
    (filePath : String) (db0 : List Row) : List Row :=
  match check_date_dirs env dates (dbDatesOf db0) filePath with
  | some (.inv l, _) => build_sqlite meta l db0
  | _ => db0

/-! ## Theorems about discovery -/

/-- C6 amended: a per-date listing that matches nothing records no error
but terminates discovery on the spot: check_date_dirs returns 0,
skipping the remaining date directories and discarding the candidates
accumulated so far. -/
theorem notfound_aborts (env : DiscEnv) (d : String) (rest dbDates : List String)
    (fp : String) (ymd : Nat × Nat × Nat)
    (h1 : d ∉ dbDates) (h2 : parseDate d = some ymd)
    (h3 : afterCutoff ymd = true)
    (h4 : env.listing (fp ++ "/" ++ d) = LsOut.notFound) :
    ∀ (acc : List (String × List Cand)) (errs : List String),
      checkGo env dbDates fp (d :: rest) acc errs = some (.zero, errs) := by
  intro acc errs
  unfold checkGo
  rw [if_neg h1]
  simp only [h2, h3, h4, if_pos]

/-- The remote of the C6 scenario: the first date directory matches
nothing, the second holds one package. -/
def c6env : DiscEnv :=
  ⟨fun p =>
    if p == "/r/2022-06-01" then .notFound
    else if p == "/r/2022-06-02" then
      .ok ["sftp> ls -l /r/2022-06-02",
           "-rw-r--r-- 1 u g 9 Jun 2 12:00 B_22222_01.tar", ""]
    else .errOther "unexpected"⟩

/-- C6 counterexample: with the matched-no-objects date first, discovery
returns 0 and the second date, which on its own yields a candidate, is
never reached — the run does not continue with the remaining units of
work. -/
theorem notfound_cx :
    check_date_dirs c6env ["2022-06-01", "2022-06-02"] [] "/r"
      = some (.zero, [])
    ∧ check_date_dirs c6env ["2022-06-02"] [] "/r"
        = some (.inv [("2022-06-02", [⟨"22222", "/r/2022-06-02/B_22222_01.tar"⟩])], []) :=
  ⟨by decide, by decide⟩

/-- Witness for C6 at the concrete environment above, with a nonempty
accumulator and error list to exhibit the discard. -/
theorem notfound_aborts_witness :
    "2022-06-01" ∉ ([] : List String)
    ∧ parseDate "2022-06-01" = some (2022, 6, 1)
    ∧ afterCutoff (2022, 6, 1) = true
    ∧ c6env.listing ("/r" ++ "/" ++ "2022-06-01") = LsOut.notFound
    ∧ checkGo c6env [] "/r" ["2022-06-01", "2022-06-02"]
        [("2022-05-30", [⟨"1", "p"⟩])] ["prior error"]
        = some (.zero, ["prior error"]) :=
  ⟨by decide, by decide, by decide, by decide,
    notfound_aborts c6env "2022-06-01" ["2022-06-02"] [] "/r" (2022, 6, 1)
      (by decide) (by decide) (by decide) (by decide)
      [("2022-05-30", [⟨"1", "p"⟩])] ["prior error"]⟩

theorem checkGo_acc_mono (env : DiscEnv) (dbDates : List String) (fp : String) :
    ∀ (dates : List String) (acc : List (String × List Cand)) (errs : List String)
      (l : List (String × List Cand)) (e2 : List String),
      checkGo env dbDates fp dates acc errs = some (.inv l, e2) →
      ∀ p ∈ acc, p ∈ l := by
  intro dates
  induction dates with
  | nil =>
      intro acc errs l e2 h p hp
      have h4 : acc = l := DiscoverResult.inv.inj (congrArg Prod.fst (Option.some.inj h))
      exact h4 ▸ hp
  | cons d rest ih =>
      intro acc errs l e2 h p hp
      unfold checkGo at h
      by_cases hc : d ∈ dbDates
      · rw [if_pos hc] at h
        exact ih acc errs l e2 h p hp
      · rw [if_neg hc] at h
        cases hpd : parseDate d with
        | none => rw [hpd] at h; cases h
        | some ymd =>
            simp only [hpd] at h
            by_cases hcut : afterCutoff ymd = true
            · rw [if_pos hcut] at h
              cases hls : env.listing (fp ++ "/" ++ d) with
              | notFound => simp only [hls] at h; simp at h
              | errOther m =>
                  simp only [hls] at h
                  exact ih _ _ l e2 h p hp
              | ok lines =>
                  simp only [hls] at h
                  by_cases hlen : 0 < ((lines.drop 1).dropLast).length
                  · rw [if_pos hlen] at h
                    exact ih _ _ l e2 h p (List.mem_append.mpr (Or.inl hp))
                  · rw [if_neg hlen] at h
                    exact ih _ _ l e2 h p hp
            · rw [if_neg hcut] at h
              exact ih _ _ l e2 h p hp

theorem checkGo_second (env : DiscEnv) (fp : String) (D0 D1 : List String)
    (hD : ∀ d, d ∈ D0 → d ∈ D1) :
    ∀ (dates : List String) (acc1 : List (String × List Cand)) (errs1 : List String)
      (l : List (String × List Cand)) (e1 : List String),
      checkGo env D0 fp dates acc1 errs1 = some (.inv l, e1) →
      (∀ d cs, (d, cs) ∈ l → cs ≠ [] → d ∈ D1) →
      ∀ (acc2 : List (String × List Cand)) (errs2 : List String),
        (∀ p ∈ acc2, p.2 = ([] : List Cand)) →
        ∃ l2 e2, checkGo env D1 fp dates acc2 errs2 = some (.inv l2, e2)
          ∧ ∀ p ∈ l2, p.2 = ([] : List Cand) := by
  intro dates
  induction dates with
  | nil =>
      intro acc1 errs1 l e1 _ _ acc2 errs2 hacc2
      exact ⟨acc2, errs2, rfl, hacc2⟩
  | cons d rest ih =>
      intro acc1 errs1 l e1 h hl acc2 errs2 hacc2
      unfold checkGo at h ⊢
      by_cases h0 : d ∈ D0
      · rw [if_pos h0] at h
        rw [if_pos (hD d h0)]
        exact ih acc1 errs1 l e1 h hl acc2 errs2 hacc2
      · rw [if_neg h0] at h
        by_cases h1 : d ∈ D1
        · rw [if_pos h1]
          cases hpd : parseDate d with
          | none => rw [hpd] at h; cases h
          | some ymd =>
              simp only [hpd] at h
              by_cases hcut : afterCutoff ymd = true
              · rw [if_pos hcut] at h
                cases hls : env.listing (fp ++ "/" ++ d) with
                | notFound => simp only [hls] at h; simp at h
                | errOther m =>
                    simp only [hls] at h
                    exact ih acc1 _ l e1 h hl acc2 errs2 hacc2
                | ok lines =>
                    simp only [hls] at h
                    by_cases hlen : 0 < ((lines.drop 1).dropLast).length
                    · rw [if_pos hlen] at h
                      exact ih _ _ l e1 h hl acc2 errs2 hacc2
                    · rw [if_neg hlen] at h
                      exact ih acc1 errs1 l e1 h hl acc2 errs2 hacc2
              · rw [if_neg hcut] at h
                exact ih acc1 errs1 l e1 h hl acc2 errs2 hacc2
        · rw [if_neg h1]
          cases hpd : parseDate d with
          | none => rw [hpd] at h; cases h
          | some ymd =>
              simp only [hpd] at h ⊢
              by_cases hcut : afterCutoff ymd = true
              · rw [if_pos hcut] at h ⊢
                cases hls : env.listing (fp ++ "/" ++ d) with
                | notFound => simp only [hls] at h; simp at h
                | errOther m =>
                    simp only [hls] at h ⊢
                    exact ih acc1 _ l e1 h hl acc2 _ hacc2
                | ok lines =>
                    simp only [hls] at h ⊢
                    by_cases hlen : 0 < ((lines.drop 1).dropLast).length
                    · rw [if_pos hlen] at h ⊢
                      have hcs : (processLines (fp ++ "/" ++ d)
                          ((lines.drop 1).dropLast)).1 = [] := by
                        by_contra hcs
                        have hmem : (d, (processLines (fp ++ "/" ++ d)
                            ((lines.drop 1).dropLast)).1) ∈ l :=
                          checkGo_acc_mono env D0 fp rest _ _ l e1 h _
                            (List.mem_append.mpr (Or.inr (by simp)))
                        exact h1 (hl d _ hmem hcs)
                      refine ih _ _ l e1 h hl
                        (acc2 ++ [(d, (processLines (fp ++ "/" ++ d)
                          ((lines.drop 1).dropLast)).1)]) _ ?_
                      intro p hp
                      rcases List.mem_append.mp hp with hp | hp
                      · exact hacc2 p hp
                      · rw [List.mem_singleton.mp hp, hcs]
                    · rw [if_neg hlen] at h ⊢
                      exact ih acc1 errs1 l e1 h hl acc2 errs2 hacc2
              · rw [if_neg hcut] at h ⊢
                exact ih acc1 errs1 l e1 h hl acc2 errs2 hacc2

/-- C8: discovery is idempotent with respect to the known dates.  After
one discovery plus enrichment run (with metadata lookups and size
conversions succeeding so that the discovered candidates are persisted),
a second discovery against the unchanged remote listing yields zero new
candidates. -/
theorem discovery_idempotent (env : DiscEnv) (meta : String → Option Meta)
    (dates : List String) (fp : String) (db0 : List Row)
    (hmeta : ∀ id, ∃ m, meta id = some m
      ∧ ∃ hr, convert_size m.total_bytes = some hr) :
    candCount (check_date_dirs env dates
      (dbDatesOf (pipelineDb env meta dates fp db0)) fp) = 0 := by
  cases hrun : check_date_dirs env dates (dbDatesOf db0) fp with
  | none =>
      have hdb : pipelineDb env meta dates fp db0 = db0 := by
        unfold pipelineDb
        rw [hrun]
      rw [hdb, hrun]
      rfl
  | some pr =>
      obtain ⟨res, errs⟩ := pr
      cases res with
      | zero =>
          have hdb : pipelineDb env meta dates fp db0 = db0 := by
            unfold pipelineDb
            rw [hrun]
          rw [hdb, hrun]
          rfl
      | inv l =>
          have hdb : pipelineDb env meta dates fp db0 = build_sqlite meta l db0 := by
            unfold pipelineDb
            rw [hrun]
          rw [hdb]
          have hD : ∀ d, d ∈ dbDatesOf db0 → d ∈ dbDatesOf (build_sqlite meta l db0) := by
            intro d hd
            unfold dbDatesOf build_sqlite
            rw [List.map_append]
            exact List.mem_append.mpr (Or.inl hd)
          have hl : ∀ d cs, (d, cs) ∈ l → cs ≠ [] →
              d ∈ dbDatesOf (build_sqlite meta l db0) := by
            intro d cs hmem hne
            obtain ⟨c, hc⟩ := List.exists_mem_of_ne_nil cs hne
            obtain ⟨m, hm, hr, hhr⟩ := hmeta c.r2rId
            unfold dbDatesOf build_sqlite
            rw [List.map_append]
            refine List.mem_append.mpr (Or.inr ?_)
            rw [List.map_flatten]
            refine List.mem_flatten.mpr ⟨_, List.mem_map_of_mem _
              (List.mem_map_of_mem _ hmem), ?_⟩
            have hrow : mkRow d c m hr ∈ ((d, cs).2.filterMap (fun c =>
                match meta c.r2rId with
                | none => none
                | some m =>
                    match convert_size m.total_bytes with
                    | none => none
                    | some hr => some (mkRow (d, cs).1 c m hr))) := by
              refine List.mem_filterMap.mpr ⟨c, hc, ?_⟩
              simp [hm, hhr]
            exact List.mem_map_of_mem _ hrow
          obtain ⟨l2, e2, hrun2, hempty⟩ :=
            checkGo_second env fp (dbDatesOf db0) (dbDatesOf (build_sqlite meta l db0))
              hD dates [] [] l errs hrun hl [] [] (by simp)
          unfold check_date_dirs
          rw [hrun2]
          unfold candCount
          refine List.sum_eq_zero ?_
          intro x hx
          obtain ⟨p, hp, hpx⟩ := List.mem_map.mp hx
          rw [← hpx, hempty p hp]
          rfl

/-- Metadata returned for every fileset in the concrete C8 run. -/
def exMeta : Meta :=
  { files := 1, total_bytes := 5, make_model_name := "EM124",
    device_name := "Multibeam Sonar", cruise_id := "CR", vessel_name := "SHIP" }

/-- The remote of the C8 scenario: one date directory holding one package
and its manifest. -/
def c8env : DiscEnv :=
  ⟨fun p =>
    if p == "/r/2022-05-01" then
      .ok ["sftp> ls -l /r/2022-05-01",
           "-rw-r--r-- 1 u g 5 May 1 12:00 CRUISE_12345_01.tar",
           "-rw-r--r-- 1 u g 5 May 1 12:00 CRUISE_12345_01.tar.md5", ""]
    else .notFound⟩

/-- Witness for C8: after discovering and enriching the 2022-05-01
package from an empty store, re-running discovery yields zero
candidates. -/
theorem discovery_idempotent_witness :
    (∀ id : String, ∃ m, (fun _ : String => some exMeta) id = some m
      ∧ ∃ hr, convert_size m.total_bytes = some hr)
    ∧ candCount (check_date_dirs c8env ["2022-05-01"]
        (dbDatesOf (pipelineDb c8env (fun _ => some exMeta) ["2022-05-01"] "/r" [])) "/r")
        = 0 :=
  ⟨fun _ => ⟨exMeta, rfl, "5 B", by decide⟩,
    discovery_idempotent c8env (fun _ => some exMeta) ["2022-05-01"] "/r" []
      (fun _ => ⟨exMeta, rfl, "5 B", by decide⟩)⟩

/-! ## Free-space probe (r2r_sftp_pull.py, landing_space_bytes lines 132-174) -/

/-- First run of digits in a string (re.search over digits; none when no
digit occurs, making .group() raise inside the guarded block). -/
def firstNumAux : List Char → Option Nat
  | [] => none
  | c :: t =>
      if c.isDigit then some (natOfDigits ((c :: t).takeWhile Char.isDigit))
      else firstNumAux t

/-- First digit run of a string as a number. -/
def firstNumber (s : String) : Option Nat :=
  firstNumAux s.toList

/-- What landing_space_bytes can return: the bare boolean of the error
paths (lines 159, 169) or the (free_space, flag) pair of lines 172/174. -/
inductive SpaceOut where
  | flag (b : Bool)
  | tup (free : Int) (ok : Bool)
deriving DecidableEq, Repr

/-- landing_space_bytes of r2r_sftp_pull.py: df failure returns False;
a missing number or any exception while converting the free-space
difference is caught and returns False; otherwise the pair is returned
with the flag comparing the available space against the cushion. -/
def landing_space_bytes (dfRet : Int) (dfOut : String) (minimum : Int) : SpaceOut :=
  if dfRet != 0 then .flag false
  else
    match firstNumber dfOut with
    | none => .flag false
    | some space =>
        match convert_size ((space : Int) - minimum * 1024 * 1024 * 1024) with
        | none => .flag false
        | some _ =>
            if (space : Int) ≥ minimum * 1024 * 1024 * 1024 then
              .tup ((space : Int) - minimum * 1024 * 1024 * 1024) true
            else .tup ((space : Int) - minimum * 1024 * 1024 * 1024) false

/-- Whether Python subscripting the returned value succeeds: a bool is
not subscriptable, a tuple is. -/
def spaceSubscriptable : SpaceOut → Bool
  | .flag _ => false
  | .tup _ _ => true

/-- C10: when the probed free bytes are strictly below the cushion, the
negative difference makes convert_size raise inside the guarded block,
so landing_space_bytes returns the bare boolean False: the
(free_space, False) tuple branch is unreachable for negative free space
and any caller that subscripts the result fails. -/
theorem negative_free_space_flag (dfOut : String) (minimum : Int) (space : Nat)
    (h1 : firstNumber dfOut = some space)
    (h2 : (space : Int) < minimum * 1024 * 1024 * 1024) :
    landing_space_bytes 0 dfOut minimum = .flag false
    ∧ spaceSubscriptable (landing_space_bytes 0 dfOut minimum) = false := by
  have hcs : convert_size ((space : Int) - minimum * 1024 * 1024 * 1024) = none := by
    unfold convert_size
    rw [if_neg (by simp only [beq_iff_eq]; omega)]
    rw [if_pos (by omega : (space : Int) - minimum * 1024 * 1024 * 1024 < 0)]
  have hmain : landing_space_bytes 0 dfOut minimum = .flag false := by
    unfold landing_space_bytes
    rw [if_neg (by decide)]
    simp only [h1, hcs]
  exact ⟨hmain, by rw [hmain]; rfl⟩

/-- Witness for C10: a df report of about 450 GB available against the
1 TiB cushion. -/
theorem negative_free_space_flag_witness :
    firstNumber "  483183820800\n" = some 483183820800
    ∧ ((483183820800 : Nat) : Int) < 1024 * 1024 * 1024 * 1024
    ∧ landing_space_bytes 0 "  483183820800\n" 1024 = .flag false
    ∧ spaceSubscriptable (landing_space_bytes 0 "  483183820800\n" 1024) = false := by
  have h := negative_free_space_flag "  483183820800\n" 1024 483183820800
    (by decide) (by decide)
  exact ⟨by decide, by decide, h.1, h.2⟩

end R2R
